import Mathlib

/-!
Shallow embedding of `src/posting/collection.py` (repository `ll931217/posting`):
the request-document data model, its YAML persistence contract, and the
directory-to-collection-tree builder.  Python data is modelled with plain Lean
types; the YAML text layer is modelled at the level of the documents it
serializes (PyYAML's `dump`/`safe_load` round-trips the plain dict/list/scalar
documents produced here faithfully, except for the repository's custom
`str_presenter` hook, which is modelled explicitly).
-/

/-- A YAML document value as produced by `yaml.safe_load` / consumed by
`yaml.dump`: null, booleans, integers, floats, strings, sequences and string-keyed
mappings.  Mappings are association lists in document order (the documents
written by `save_to_disk` never contain duplicate keys). -/
inductive Yaml where
  | null
  | bool (b : Bool)
  | int (n : Int)
  | num (q : Rat)
  | str (s : String)
  | list (xs : List Yaml)
  | map (kvs : List (String × Yaml))

/-- Key lookup in a YAML mapping (Python `dict` access for the dicts
constructed here, which have no duplicate keys). -/
def getKey : List (String × Yaml) → String → Option Yaml
  | [], _ => none
  | (k', v) :: rest, k => if k = k' then some v else getKey rest k

/-- Line-boundary characters recognised by Python `str.splitlines`. -/
def isLineBreak (c : Char) : Bool :=
  c = '\n' || c = '\r' || c = '\x0b' || c = '\x0c' ||
  c = '\x1c' || c = '\x1d' || c = '\x1e' || c = '\x85' ||
  c = '\u2028' || c = '\u2029'

/-- Whitespace characters stripped by Python `str.rstrip()` (the common ones;
exotic Unicode spaces beyond U+00A0 are not modelled). -/
def pyIsSpace (c : Char) : Bool :=
  c = ' ' || c = '\t' || c = '\n' || c = '\r' || c = '\x0b' || c = '\x0c' ||
  c = '\x1c' || c = '\x1d' || c = '\x1e' || c = '\x85' || c = '\xa0'

/-- Worker for `pySplitlines`: `acc` holds the current line, reversed; `sawCR`
records that the previous character was a carriage return, so that a directly
following line feed is part of the same `"\r\n"` boundary and is swallowed. -/
def splitlinesAux : List Char → List Char → Bool → List String
  | [], acc, _ => if acc.isEmpty then [] else [String.mk acc.reverse]
  | c :: rest, acc, sawCR =>
      if sawCR && c = '\n' then splitlinesAux rest acc false
      else if isLineBreak c then
        String.mk acc.reverse :: splitlinesAux rest [] (c = '\r')
      else splitlinesAux rest (c :: acc) false

/-- Python `str.splitlines()`: split at line boundaries (`"\r\n"` counting as
one boundary), not keeping them; a trailing boundary does not produce a final
empty line. -/
def pySplitlines (s : String) : List String :=
  splitlinesAux s.data [] false

/-- Python `str.rstrip()`: remove trailing whitespace. -/
def pyRstrip (s : String) : String :=
  String.mk (s.data.reverse.dropWhile pyIsSpace).reverse

/-- Python `"\n".join(lines)`. -/
def joinNL : List String → String
  | [] => ""
  | [l] => l
  | l :: l₂ :: ls => l ++ "\n" ++ joinNL (l₂ :: ls)

/-- Python `data.count("\n")`: number of newline characters. -/
def pyCountNL (s : String) : Nat :=
  s.data.count '\n'

/-- The scalar emission style chosen by the representer: YAML literal block
style (`style="|"`) or the dumper's default style. -/
inductive ScalarStyle where
  | literal
  | plain
deriving DecidableEq

/-- `str_presenter` (collection.py lines 15-21), registered process-wide on the
YAML dumpers: for a string containing a newline, rstrip every line, rejoin with
newlines, and emit with literal block style; otherwise emit unchanged with the
default style.  Returns the string actually emitted plus the chosen style. -/
def str_presenter (data : String) : String × ScalarStyle :=
  if pyCountNL data > 0 then
    (joinNL ((pySplitlines data).map pyRstrip), ScalarStyle.literal)
  else
    (data, ScalarStyle.plain)

/-- The value a string scalar comes back as after `yaml.dump` (through
`str_presenter`) followed by `yaml.safe_load`.  PyYAML emits exactly the string
handed to `represent_scalar` (choosing quoting/indentation so the parse is
faithful), so the dump/load round-trip of a string is `str_presenter`'s
rewrite. -/
def strRT (s : String) : String :=
  (str_presenter s).1

mutual
/-- Effect of a `yaml.dump` / `yaml.safe_load` round-trip on a document value:
every string scalar (keys included) passes through `str_presenter`; all other
scalars and all structure are preserved. -/
def Yaml.rt : Yaml → Yaml
  | .null => .null
  | .bool b => .bool b
  | .int n => .int n
  | .num q => .num q
  | .str s => .str (strRT s)
  | .list xs => .list (rtList xs)
  | .map kvs => .map (rtKVs kvs)

def rtList : List Yaml → List Yaml
  | [] => []
  | v :: vs => v.rt :: rtList vs

def rtKVs : List (String × Yaml) → List (String × Yaml)
  | [] => []
  | (k, v) :: kvs => (strRT k, v.rt) :: rtKVs kvs
end

/-- A string the YAML round-trip leaves unchanged. -/
def strStableB (s : String) : Bool :=
  strRT s == s

mutual
/-- A document value the YAML round-trip leaves unchanged (all strings stable). -/
def Yaml.stableB : Yaml → Bool
  | .str s => strStableB s
  | .list xs => stableListB xs
  | .map kvs => stableKVsB kvs
  | _ => true

def stableListB : List Yaml → Bool
  | [] => true
  | v :: vs => v.stableB && stableListB vs

def stableKVsB : List (String × Yaml) → Bool
  | [] => true
  | (k, v) :: kvs => strStableB k && v.stableB && stableKVsB kvs
end

/-- Effect of the `yaml.dump` / `yaml.safe_load` round-trip on a whole
top-level document (a mapping). -/
def docRT (d : List (String × Yaml)) : List (String × Yaml) :=
  rtKVs d

/-- Modelled from the spec: `posting.version.VERSION` (the `posting/version.py`
module is not part of the given source).  The spec calls it the "schema version
(string stamped at creation)"; its concrete value is irrelevant to every claim,
only its use as the `posting_version` default matters. -/
def VERSION : String := "0.1.0"

/-- `HttpRequestMethod = Literal["GET", "POST", "PUT", "DELETE", "PATCH",
"HEAD", "OPTIONS"]` (collection.py line 12). -/
inductive HttpRequestMethod where
  | GET | POST | PUT | DELETE | PATCH | HEAD | OPTIONS
deriving DecidableEq

/-- The string carried by the `method` literal. -/
def HttpRequestMethod.toStr : HttpRequestMethod → String
  | .GET => "GET"
  | .POST => "POST"
  | .PUT => "PUT"
  | .DELETE => "DELETE"
  | .PATCH => "PATCH"
  | .HEAD => "HEAD"
  | .OPTIONS => "OPTIONS"

/-- `class BasicAuth` (collection.py lines 36-38).  `SecretStr` is modelled as
its underlying string. -/
structure BasicAuth where
  username : String := ""
  password : String := ""
deriving DecidableEq

/-- `class DigestAuth` (collection.py lines 41-43). -/
structure DigestAuth where
  username : String := ""
  password : String := ""
deriving DecidableEq

/-- The `Literal["basic", "digest"]` tag of `Auth.type`. -/
inductive AuthType where
  | basic | digest
deriving DecidableEq

/-- `class Auth` (collection.py lines 30-33). -/
structure Auth where
  type : Option AuthType := none
  basic : Option BasicAuth := none
  digest : Option DigestAuth := none
deriving DecidableEq

/-- `class Header` (collection.py lines 46-49). -/
structure Header where
  name : String
  value : String
  enabled : Bool := true
deriving DecidableEq

/-- `class FormItem` (collection.py lines 52-55). -/
structure FormItem where
  name : String
  value : String
  enabled : Bool := true
deriving DecidableEq

/-- `class QueryParam` (collection.py lines 58-61). -/
structure QueryParam where
  name : String
  value : String
  enabled : Bool := true
deriving DecidableEq

/-- `class Cookie` (collection.py lines 64-67). -/
structure Cookie where
  name : String
  value : String
  enabled : Bool := true
deriving DecidableEq

/-- `class Options` (collection.py lines 74-79).  Python's `float` carries no
arithmetic here, only equality with the default, so `timeout` is modelled as a
rational. -/
structure Options where
  follow_redirects : Bool := true
  verify_ssl : Bool := true
  attach_cookies : Bool := true
  proxy_url : String := ""
  timeout : Rat := 5
deriving DecidableEq

/-- `class RequestModel` (collection.py lines 82-130).  Field order follows the
class body; `auth` is declared twice there (lines 109 and 123) and, by Python
class-body semantics, ends up as a single field at its first position carrying
the second declaration's `exclude=True` metadata (see
`requestModelFieldDecls`).  `path` is modelled as the path string of the
backing file; `content`'s `bytes` alternative is not exercised by any claim and
is modelled as the string alternative. -/
structure RequestModel where
  name : String := ""
  description : String := ""
  method : HttpRequestMethod := .GET
  url : String := ""
  path : Option String := none
  json_body : Option (List (String × Yaml)) := none
  form_data : Option (List (String × Yaml)) := none
  content : Option String := none
  auth : Option Auth := none
  headers : List Header := []
  params : List QueryParam := []
  cookies : List Cookie := []
  posting_version : String := VERSION
  options : Options := {}

/-- The `(field name, exclude flag)` pairs of the `RequestModel` class body, in
source order, including both `auth` declarations (lines 109 and 123). -/
def requestModelFieldDecls : List (String × Bool) :=
  [("name", false), ("description", false), ("method", false), ("url", false),
   ("path", true), ("json_body", false), ("form_data", false),
   ("content", false), ("auth", false), ("headers", false), ("params", false),
   ("cookies", true), ("auth", true), ("posting_version", false),
   ("options", false)]

/-- Python class-body semantics: assigning a name again overrides the earlier
assignment, so a field's effective `exclude` flag is the one of its last
declaration. -/
def effectiveExclude (f : String) : Bool :=
  ((requestModelFieldDecls.filter (fun d => d.1 = f)).getLast?).elim false Prod.snd

/-- One optional entry of a dumped document: present with key `k` when the
serializer keeps the field, absent when the field is excluded by
`exclude_defaults=True` / `exclude_none=True`. -/
def optPiece (k : String) : Option Yaml → List (String × Yaml)
  | none => []
  | some v => [(k, v)]

/-- `model_dump(exclude_defaults=True, exclude_none=True)` of a nested
`Header`: `enabled` is omitted when it equals its default `True`. -/
def Header.dump (h : Header) : Yaml :=
  .map ([("name", .str h.name), ("value", .str h.value)] ++
    (if h.enabled then [] else [("enabled", .bool h.enabled)]))

/-- `model_dump(exclude_defaults=True, exclude_none=True)` of a nested
`QueryParam`. -/
def QueryParam.dump (p : QueryParam) : Yaml :=
  .map ([("name", .str p.name), ("value", .str p.value)] ++
    (if p.enabled then [] else [("enabled", .bool p.enabled)]))

/-- `model_dump(exclude_defaults=True, exclude_none=True)` of a nested
`Options`: every sub-field equal to its default is omitted. -/
def Options.dump (o : Options) : List (String × Yaml) :=
  optPiece "follow_redirects" (if o.follow_redirects = true then none else some (.bool o.follow_redirects)) ++
  (optPiece "verify_ssl" (if o.verify_ssl = true then none else some (.bool o.verify_ssl)) ++
  (optPiece "attach_cookies" (if o.attach_cookies = true then none else some (.bool o.attach_cookies)) ++
  (optPiece "proxy_url" (if o.proxy_url = "" then none else some (.str o.proxy_url)) ++
  optPiece "timeout" (if o.timeout = 5 then none else some (.num o.timeout)))))

/-- The document built by `save_to_disk` (collection.py line 160):
`self.model_dump(exclude_defaults=True, exclude_none=True)`.  Fields are
emitted in declaration order; a field is omitted when its value equals its
declared default or is `None`; fields declared with `exclude=True` (`path`,
`cookies`, and, through the overriding second declaration, `auth`) are never
emitted.  Nested models are dumped with the same exclusion flags. -/
def RequestModel.model_dump (r : RequestModel) : List (String × Yaml) :=
  optPiece "name" (if r.name = "" then none else some (.str r.name)) ++
  (optPiece "description" (if r.description = "" then none else some (.str r.description)) ++
  (optPiece "method" (if r.method = .GET then none else some (.str r.method.toStr)) ++
  (optPiece "url" (if r.url = "" then none else some (.str r.url)) ++
  (optPiece "json_body" (r.json_body.map .map) ++
  (optPiece "form_data" (r.form_data.map .map) ++
  (optPiece "content" (r.content.map .str) ++
  (optPiece "headers" (if r.headers = [] then none else some (.list (r.headers.map Header.dump))) ++
  (optPiece "params" (if r.params = [] then none else some (.list (r.params.map QueryParam.dump))) ++
  (optPiece "posting_version" (if r.posting_version = VERSION then none else some (.str r.posting_version)) ++
  optPiece "options" (if r.options = {} then none else some (.map r.options.dump)))))))))))

/-- The string values a Request Entity carries into its encoded document, all
left unchanged by the YAML text layer: every such string is either single-line
or a multi-line string whose lines carry no trailing whitespace and which does
not end in a line terminator.  This is the class of entities whose documents
the `str_presenter` rewrite does not alter. -/
def RequestModel.stringsStableB (r : RequestModel) : Bool :=
  strStableB r.name && strStableB r.description && strStableB r.url &&
  (match r.json_body with | none => true | some kvs => stableKVsB kvs) &&
  (match r.form_data with | none => true | some kvs => stableKVsB kvs) &&
  (match r.content with | none => true | some s => strStableB s) &&
  r.headers.all (fun h => strStableB h.name && strStableB h.value) &&
  r.params.all (fun p => strStableB p.name && strStableB p.value) &&
  strStableB r.posting_version && strStableB r.options.proxy_url

/-- Pydantic validation of a `str` field with a default: a missing key takes
the default, a string validates, anything else (including `null`) is a
validation error. -/
def parseStrD (v : Option Yaml) (d : String) : Option String :=
  match v with
  | none => some d
  | some (.str s) => some s
  | some _ => none

/-- Pydantic validation of a required `str` field (no default). -/
def parseStrReq (v : Option Yaml) : Option String :=
  match v with
  | some (.str s) => some s
  | _ => none

/-- Pydantic validation of a `bool` field with a default. -/
def parseBoolD (v : Option Yaml) (d : Bool) : Option Bool :=
  match v with
  | none => some d
  | some (.bool b) => some b
  | some _ => none

/-- Pydantic validation of a `dict[str, Any] | None` field (default `None`). -/
def parseOptMap (v : Option Yaml) : Option (Option (List (String × Yaml))) :=
  match v with
  | none => some none
  | some .null => some none
  | some (.map kvs) => some (some kvs)
  | some _ => none

/-- Pydantic validation of a `str | bytes | None` field (default `None`). -/
def parseOptStr (v : Option Yaml) : Option (Option String) :=
  match v with
  | none => some none
  | some .null => some none
  | some (.str s) => some (some s)
  | some _ => none

/-- Pydantic validation of a `float` field with a default (ints coerce). -/
def parseFloatD (v : Option Yaml) (d : Rat) : Option Rat :=
  match v with
  | none => some d
  | some (.num q) => some q
  | some (.int n) => some (n : Rat)
  | some _ => none

/-- Pydantic validation of the `method` literal field (default `"GET"`). -/
def parseMethod (v : Option Yaml) : Option HttpRequestMethod :=
  match v with
  | none => some .GET
  | some (.str "GET") => some .GET
  | some (.str "POST") => some .POST
  | some (.str "PUT") => some .PUT
  | some (.str "DELETE") => some .DELETE
  | some (.str "PATCH") => some .PATCH
  | some (.str "HEAD") => some .HEAD
  | some (.str "OPTIONS") => some .OPTIONS
  | some _ => none

/-- Pydantic validation of one `Header` item: `name` and `value` are required
strings, `enabled` defaults to `True`, unknown keys are ignored. -/
def parseHeader (v : Yaml) : Option Header :=
  match v with
  | .map kvs => do
      let nm ← parseStrReq (getKey kvs "name")
      let vl ← parseStrReq (getKey kvs "value")
      let en ← parseBoolD (getKey kvs "enabled") true
      pure { name := nm, value := vl, enabled := en }
  | _ => none

/-- Pydantic validation of the `headers` list field (default empty list). -/
def parseHeaders (v : Option Yaml) : Option (List Header) :=
  match v with
  | none => some []
  | some (.list xs) => xs.mapM parseHeader
  | some _ => none

/-- Pydantic validation of one `QueryParam` item. -/
def parseParam (v : Yaml) : Option QueryParam :=
  match v with
  | .map kvs => do
      let nm ← parseStrReq (getKey kvs "name")
      let vl ← parseStrReq (getKey kvs "value")
      let en ← parseBoolD (getKey kvs "enabled") true
      pure { name := nm, value := vl, enabled := en }
  | _ => none

/-- Pydantic validation of the `params` list field (default empty list). -/
def parseParams (v : Option Yaml) : Option (List QueryParam) :=
  match v with
  | none => some []
  | some (.list xs) => xs.mapM parseParam
  | some _ => none

/-- Pydantic validation of one `Cookie` item. -/
def parseCookie (v : Yaml) : Option Cookie :=
  match v with
  | .map kvs => do
      let nm ← parseStrReq (getKey kvs "name")
      let vl ← parseStrReq (getKey kvs "value")
      let en ← parseBoolD (getKey kvs "enabled") true
      pure { name := nm, value := vl, enabled := en }
  | _ => none

/-- Pydantic validation of the `cookies` list field (default empty list;
`exclude=True` affects serialization only, not validation). -/
def parseCookies (v : Option Yaml) : Option (List Cookie) :=
  match v with
  | none => some []
  | some (.list xs) => xs.mapM parseCookie
  | some _ => none

/-- Pydantic validation of the `Auth.type` literal (default `None`). -/
def parseAuthType (v : Option Yaml) : Option (Option AuthType) :=
  match v with
  | none => some none
  | some .null => some none
  | some (.str "basic") => some (some .basic)
  | some (.str "digest") => some (some .digest)
  | some _ => none

/-- Pydantic validation of a `BasicAuth | None` sub-field. -/
def parseBasicAuth (v : Option Yaml) : Option (Option BasicAuth) :=
  match v with
  | none => some none
  | some .null => some none
  | some (.map kvs) => do
      let u ← parseStrD (getKey kvs "username") ""
      let p ← parseStrD (getKey kvs "password") ""
      pure (some { username := u, password := p })
  | some _ => none

/-- Pydantic validation of a `DigestAuth | None` sub-field. -/
def parseDigestAuth (v : Option Yaml) : Option (Option DigestAuth) :=
  match v with
  | none => some none
  | some .null => some none
  | some (.map kvs) => do
      let u ← parseStrD (getKey kvs "username") ""
      let p ← parseStrD (getKey kvs "password") ""
      pure (some { username := u, password := p })
  | some _ => none

/-- Pydantic validation of the `auth` field (default `None`). -/
def parseAuth (v : Option Yaml) : Option (Option Auth) :=
  match v with
  | none => some none
  | some .null => some none
  | some (.map kvs) => do
      let ty ← parseAuthType (getKey kvs "type")
      let ba ← parseBasicAuth (getKey kvs "basic")
      let da ← parseDigestAuth (getKey kvs "digest")
      pure (some { type := ty, basic := ba, digest := da })
  | some _ => none

/-- Pydantic validation of the `options` field (default `Options()`). -/
def parseOptions (v : Option Yaml) : Option Options :=
  match v with
  | none => some {}
  | some (.map kvs) => do
      let fr ← parseBoolD (getKey kvs "follow_redirects") true
      let vs ← parseBoolD (getKey kvs "verify_ssl") true
      let ac ← parseBoolD (getKey kvs "attach_cookies") true
      let pu ← parseStrD (getKey kvs "proxy_url") ""
      let tm ← parseFloatD (getKey kvs "timeout") 5
      pure { follow_redirects := fr, verify_ssl := vs, attach_cookies := ac,
             proxy_url := pu, timeout := tm }
  | some _ => none

/-- `load_request_from_yaml` (collection.py lines 221-232), after
`yaml.safe_load` has produced the top-level mapping `d`:
`RequestModel(**data, path=Path(file_path))`.  A `path` key inside the document
collides with the explicit `path=` keyword argument (a `TypeError`), modelled
as failure; every field is validated as pydantic does, missing keys take the
declared defaults, unknown keys are ignored, and any validation error makes
the whole decode fail. -/
def decodeDoc (d : List (String × Yaml)) (fp : String) : Option RequestModel :=
  if (getKey d "path").isSome then none
  else do
    let nm ← parseStrD (getKey d "name") ""
    let de ← parseStrD (getKey d "description") ""
    let me ← parseMethod (getKey d "method")
    let ur ← parseStrD (getKey d "url") ""
    let jb ← parseOptMap (getKey d "json_body")
    let fd ← parseOptMap (getKey d "form_data")
    let co ← parseOptStr (getKey d "content")
    let au ← parseAuth (getKey d "auth")
    let he ← parseHeaders (getKey d "headers")
    let pa ← parseParams (getKey d "params")
    let ck ← parseCookies (getKey d "cookies")
    let pv ← parseStrD (getKey d "posting_version") VERSION
    let op ← parseOptions (getKey d "options")
    pure { name := nm, description := de, method := me, url := ur,
           path := some fp, json_body := jb, form_data := fd, content := co,
           auth := au, headers := he, params := pa, cookies := ck,
           posting_version := pv, options := op }

/-- The transport request assembled by `httpx.AsyncClient.build_request` from
the arguments `to_httpx` passes: method, url, content, and the header /
query-parameter / cookie pairs. -/
structure HttpxRequest where
  method : String
  url : String
  content : Option String
  headers : List (String × String)
  params : List (String × String)
  cookies : List (String × String)
deriving DecidableEq

/-- Python attribute access `self.body` inside `to_httpx` (collection.py
line 137): `RequestModel` declares no field or property named `body` (see
`requestModelFieldDecls`), so the lookup raises `AttributeError`. -/
def RequestModel.attr_body (_ : RequestModel) : Except String String :=
  .error "AttributeError: RequestModel has no attribute body"

/-- `RequestModel.to_httpx` (collection.py lines 132-155): the
`build_request` keyword arguments are evaluated in order — `method=self.method`,
`url=self.url`, `content=self.body`, then the enabled-only header, query
parameter and cookie pairs.  Evaluating `self.body` raises, which the `Except`
models; the remaining argument expressions are the source's filters. -/
def RequestModel.to_httpx (r : RequestModel) : Except String HttpxRequest := do
  let me := r.method.toStr
  let ur := r.url
  let co ← r.attr_body
  let he := (r.headers.filter (fun h => h.enabled)).map (fun h => (h.name, h.value))
  let pa := (r.params.filter (fun p => p.enabled)).map (fun p => (p.name, p.value))
  let ck := (r.cookies.filter (fun c => c.enabled)).map (fun c => (c.name, c.value))
  pure { method := me, url := ur, content := some co, headers := he,
         params := pa, cookies := ck }

/-- A collection-tree node, `class Collection` (collection.py lines 166-170):
a filesystem location (as path segments), a name, the requests directly
contained, and the child nodes. -/
inductive Collection where
  | mk (path : List String) (name : String) (requests : List RequestModel)
       (children : List Collection)

/-- The `name` attribute of a `Collection`. -/
def Collection.cname : Collection → String
  | .mk _ n _ _ => n

/-- The `path` attribute of a `Collection`. -/
def Collection.cpath : Collection → List String
  | .mk p _ _ _ => p

/-- The `requests` attribute of a `Collection`. -/
def Collection.requests : Collection → List RequestModel
  | .mk _ _ reqs _ => reqs

/-- The `children` attribute of a `Collection`. -/
def Collection.children : Collection → List Collection
  | .mk _ _ _ cs => cs

/-- Replace the first child whose name matches `part` by `f` applied to it —
the in-place mutation performed after the `for child in
current_level.children` search (collection.py lines 204-208) succeeds. -/
def replaceFirstNamed (part : String) (f : Collection → Collection) :
    List Collection → List Collection
  | [] => []
  | ch :: chs =>
      if ch.cname = part then f ch :: chs
      else ch :: replaceFirstNamed part f chs

/-- The per-document insertion loop of `Collection.from_directory`
(collection.py lines 199-214): walk the directory segments `parts`, descending
into the existing child of that name or appending a fresh one
(`Collection(name=part, path=subpath)`), then append the request to the
deepest node reached.  `sp` is the accumulated `subpath`. -/
def insertInto (r : RequestModel) : List String → List String → Collection → Collection
  | _, [], .mk p n reqs cs => .mk p n (reqs ++ [r]) cs
  | sp, part :: rest, .mk p n reqs cs =>
      if cs.any (fun ch => ch.cname = part) then
        .mk p n reqs
          (replaceFirstNamed part (fun ch => insertInto r (sp ++ [part]) rest ch) cs)
      else
        .mk p n reqs
          (cs ++ [insertInto r (sp ++ [part]) rest (.mk (sp ++ [part]) part [] [])])

/-- One file discovered by `directory_path.rglob("*.posting.yaml")`: its path
components relative to the root directory (the last component is the file
name), and the outcome of `load_request_from_yaml` on it — `none` models the
exception a malformed document raises. -/
structure FoundFile where
  relParts : List String
  parsed : Option RequestModel

/-- `Collection.from_directory` (collection.py lines 172-218).  The root node
is `Collection(name=directory basename, path=directory)`; each discovered file
is decoded and inserted at the node addressed by its directory segments
(`path_parts[:-1]`); a document whose decode raises is reported and skipped,
leaving the tree as it was (the `try` body mutates the tree only after
`load_request_from_yaml` has succeeded).  `buildStep` is the body of the
`for file_path in request_files` loop for one file. -/
def buildStep (rootPath : List String) (acc : Collection) (f : FoundFile) : Collection :=
  match f.parsed with
  | none => acc
  | some r => insertInto r rootPath f.relParts.dropLast acc

/-- `Collection.from_directory` (collection.py lines 172-218): fold `buildStep`
over the discovered files, in filesystem enumeration order, starting from the
fresh root node `Collection(name=directory basename, path=directory)`. -/
def Collection.from_directory (rootName : String) (rootPath : List String)
    (files : List FoundFile) : Collection :=
  files.foldl (buildStep rootPath) (.mk rootPath rootName [] [])

mutual
/-- All requests contained in a tree: own requests first, then the children's
in order. -/
def Collection.allRequests : Collection → List RequestModel
  | .mk _ _ reqs cs => reqs ++ allRequestsList cs

/-- All requests contained in a forest of trees. -/
def allRequestsList : List Collection → List RequestModel
  | [] => []
  | c :: cs => c.allRequests ++ allRequestsList cs
end

mutual
/-- Sibling child nodes have pairwise distinct names, at every node of the
tree. -/
def Collection.uniqueNames : Collection → Prop
  | .mk _ _ _ cs => (cs.map Collection.cname).Nodup ∧ uniqueNamesList cs

/-- `Collection.uniqueNames` holds of every tree in the forest. -/
def uniqueNamesList : List Collection → Prop
  | [] => True
  | c :: cs => c.uniqueNames ∧ uniqueNamesList cs
end

theorem getKey_append : ∀ (d₁ d₂ : List (String × Yaml)) (k : String),
    getKey (d₁ ++ d₂) k = (getKey d₁ k).or (getKey d₂ k)
  | [], d₂, k => rfl
  | (k', v) :: rest, d₂, k => by
      simp only [List.cons_append, getKey]
      split
      · rfl
      · exact getKey_append rest d₂ k

theorem getKey_optPiece (k k' : String) (v : Option Yaml) :
    getKey (optPiece k' v) k = if k = k' then v else none := by
  cases v with
  | none => simp [optPiece, getKey]
  | some x => simp [optPiece, getKey]

theorem getKey_dump_name (r : RequestModel) :
    getKey r.model_dump "name" = if r.name = "" then none else some (.str r.name) := by
  simp [RequestModel.model_dump, getKey_append, getKey_optPiece]

theorem getKey_dump_cookies (r : RequestModel) :
    getKey r.model_dump "cookies" = none := by
  simp [RequestModel.model_dump, getKey_append, getKey_optPiece]

theorem getKey_dump_description (r : RequestModel) :
    getKey r.model_dump "description" = if r.description = "" then none else some (.str r.description) := by
  simp [RequestModel.model_dump, getKey_append, getKey_optPiece]

theorem getKey_dump_method (r : RequestModel) :
    getKey r.model_dump "method" = if r.method = .GET then none else some (.str r.method.toStr) := by
  simp [RequestModel.model_dump, getKey_append, getKey_optPiece]

theorem getKey_dump_url (r : RequestModel) :
    getKey r.model_dump "url" = if r.url = "" then none else some (.str r.url) := by
  simp [RequestModel.model_dump, getKey_append, getKey_optPiece]

theorem getKey_dump_json_body (r : RequestModel) :
    getKey r.model_dump "json_body" = r.json_body.map .map := by
  simp [RequestModel.model_dump, getKey_append, getKey_optPiece]

theorem getKey_dump_form_data (r : RequestModel) :
    getKey r.model_dump "form_data" = r.form_data.map .map := by
  simp [RequestModel.model_dump, getKey_append, getKey_optPiece]

theorem getKey_dump_content (r : RequestModel) :
    getKey r.model_dump "content" = r.content.map .str := by
  simp [RequestModel.model_dump, getKey_append, getKey_optPiece]

theorem getKey_dump_headers (r : RequestModel) :
    getKey r.model_dump "headers" =
      if r.headers = [] then none else some (.list (r.headers.map Header.dump)) := by
  simp [RequestModel.model_dump, getKey_append, getKey_optPiece]

theorem getKey_dump_params (r : RequestModel) :
    getKey r.model_dump "params" =
      if r.params = [] then none else some (.list (r.params.map QueryParam.dump)) := by
  simp [RequestModel.model_dump, getKey_append, getKey_optPiece]

theorem getKey_dump_posting_version (r : RequestModel) :
    getKey r.model_dump "posting_version" =
      if r.posting_version = VERSION then none else some (.str r.posting_version) := by
  simp [RequestModel.model_dump, getKey_append, getKey_optPiece]

theorem getKey_dump_options (r : RequestModel) :
    getKey r.model_dump "options" =
      if r.options = {} then none else some (.map r.options.dump) := by
  simp [RequestModel.model_dump, getKey_append, getKey_optPiece]

theorem getKey_dump_path (r : RequestModel) :
    getKey r.model_dump "path" = none := by
  simp [RequestModel.model_dump, getKey_append, getKey_optPiece]

theorem getKey_dump_auth (r : RequestModel) :
    getKey r.model_dump "auth" = none := by
  simp [RequestModel.model_dump, getKey_append, getKey_optPiece]

theorem parseStrD_dump (c : Prop) [Decidable c] (s d : String) (hc : c → s = d) :
    parseStrD (if c then none else some (.str s)) d = some s := by
  split
  · rename_i h; rw [hc h]; rfl
  · rfl

theorem parseBoolD_dump (b d : Bool) :
    parseBoolD (if b = d then none else some (.bool b)) d = some b := by
  split
  · rename_i h; rw [h]; rfl
  · rfl

theorem parseFloatD_dump (q d : Rat) :
    parseFloatD (if q = d then none else some (.num q)) d = some q := by
  split
  · rename_i h; rw [h]; rfl
  · rfl

theorem parseMethod_dump (m : HttpRequestMethod) :
    parseMethod (if m = .GET then none else some (.str m.toStr)) = some m := by
  split
  · rename_i h; rw [h]; rfl
  · cases m <;> rfl

theorem parseOptMap_dump (o : Option (List (String × Yaml))) :
    parseOptMap (o.map .map) = some o := by
  cases o <;> rfl

theorem parseOptStr_dump (o : Option String) :
    parseOptStr (o.map .str) = some o := by
  cases o <;> rfl

theorem mapM_of_inverse {α β : Type} {f : α → β} {g : β → Option α}
    (hfg : ∀ x, g (f x) = some x) : ∀ l : List α, (l.map f).mapM g = some l
  | [] => rfl
  | x :: xs => by
      simp only [List.map_cons, List.mapM_cons, hfg x, mapM_of_inverse hfg xs]
      rfl

theorem parseHeader_dump (h : Header) : parseHeader h.dump = some h := by
  obtain ⟨n, v, e⟩ := h
  cases e <;> rfl

theorem parseParam_dump (p : QueryParam) : parseParam p.dump = some p := by
  obtain ⟨n, v, e⟩ := p
  cases e <;> rfl

theorem parseHeaders_dump (hs : List Header) :
    parseHeaders (if hs = [] then none else some (.list (hs.map Header.dump))) = some hs := by
  split
  · rename_i h; rw [h]; rfl
  · exact mapM_of_inverse parseHeader_dump hs

theorem parseParams_dump (ps : List QueryParam) :
    parseParams (if ps = [] then none else some (.list (ps.map QueryParam.dump))) = some ps := by
  split
  · rename_i h; rw [h]; rfl
  · exact mapM_of_inverse parseParam_dump ps

theorem parseOptions_dump (o : Options) :
    parseOptions (if o = ({} : Options) then none else some (.map o.dump)) = some o := by
  split
  · rename_i h; rw [h]; rfl
  · obtain ⟨fr, vs, ac, pu, tm⟩ := o
    simp only [parseOptions, Options.dump, getKey_append, getKey_optPiece]
    simp [parseBoolD_dump, parseFloatD_dump, parseStrD_dump (pu = "") pu "" (fun h => h)]

theorem decode_model_dump (r : RequestModel) (fp : String)
    (hck : r.cookies = []) (hau : r.auth = none) :
    decodeDoc r.model_dump fp = some { r with path := some fp } := by
  unfold decodeDoc
  rw [getKey_dump_path]
  simp only [Option.isSome_none, Bool.false_eq_true, if_false]
  rw [getKey_dump_name, getKey_dump_description, getKey_dump_method, getKey_dump_url,
      getKey_dump_json_body, getKey_dump_form_data, getKey_dump_content,
      getKey_dump_auth, getKey_dump_headers, getKey_dump_params,
      getKey_dump_cookies, getKey_dump_posting_version, getKey_dump_options]
  rw [parseStrD_dump (r.name = "") r.name "" (fun h => h),
      parseStrD_dump (r.description = "") r.description "" (fun h => h),
      parseStrD_dump (r.url = "") r.url "" (fun h => h),
      parseStrD_dump (r.posting_version = VERSION) r.posting_version VERSION (fun h => h)]
  rw [parseMethod_dump, parseOptMap_dump, parseOptMap_dump, parseOptStr_dump,
      parseHeaders_dump, parseParams_dump, parseOptions_dump]
  simp only [parseAuth, parseCookies, Option.some_bind]
  rw [hck, hau]
  rfl

theorem strRT_stable {s : String} (h : strStableB s = true) : strRT s = s := by
  simpa [strStableB] using h

mutual
theorem Yaml.rt_stable : ∀ (v : Yaml), v.stableB = true → v.rt = v
  | .null, _ => rfl
  | .bool _, _ => rfl
  | .int _, _ => rfl
  | .num _, _ => rfl
  | .str s, h => by
      simp only [Yaml.rt]
      rw [strRT_stable (by simpa [Yaml.stableB] using h)]
  | .list xs, h => by
      simp only [Yaml.rt]
      rw [rtList_stable xs (by simpa [Yaml.stableB] using h)]
  | .map kvs, h => by
      simp only [Yaml.rt]
      rw [rtKVs_stable kvs (by simpa [Yaml.stableB] using h)]

theorem rtList_stable : ∀ (xs : List Yaml), stableListB xs = true → rtList xs = xs
  | [], _ => rfl
  | v :: vs, h => by
      have h' := h
      simp only [stableListB, Bool.and_eq_true] at h'
      simp only [rtList]
      rw [Yaml.rt_stable v h'.1, rtList_stable vs h'.2]

theorem rtKVs_stable : ∀ (kvs : List (String × Yaml)), stableKVsB kvs = true → rtKVs kvs = kvs
  | [], _ => rfl
  | (k, v) :: kvs, h => by
      have h' := h
      simp only [stableKVsB, Bool.and_eq_true] at h'
      simp only [rtKVs]
      rw [strRT_stable h'.1.1, Yaml.rt_stable v h'.1.2, rtKVs_stable kvs h'.2]
end

theorem stableKVsB_append (d₁ d₂ : List (String × Yaml)) :
    stableKVsB (d₁ ++ d₂) = (stableKVsB d₁ && stableKVsB d₂) := by
  induction d₁ with
  | nil => simp [stableKVsB]
  | cons kv rest ih =>
      obtain ⟨k, v⟩ := kv
      simp [stableKVsB, ih, Bool.and_assoc]

theorem stableKVsB_optPiece (k : String) (v : Option Yaml)
    (hk : strStableB k = true) (hv : ∀ x, v = some x → x.stableB = true) :
    stableKVsB (optPiece k v) = true := by
  cases v with
  | none => rfl
  | some x => simp [optPiece, stableKVsB, hk, hv x rfl]

theorem method_toStr_stable (m : HttpRequestMethod) : strStableB m.toStr = true := by
  cases m <;> decide

theorem header_dump_stable (h : Header)
    (hn : strStableB h.name = true) (hv : strStableB h.value = true) :
    Yaml.stableB h.dump = true := by
  obtain ⟨n, v, e⟩ := h
  cases e <;> simp_all [Header.dump, Yaml.stableB, stableKVsB] <;> decide

theorem param_dump_stable (p : QueryParam)
    (hn : strStableB p.name = true) (hv : strStableB p.value = true) :
    Yaml.stableB p.dump = true := by
  obtain ⟨n, v, e⟩ := p
  cases e <;> simp_all [QueryParam.dump, Yaml.stableB, stableKVsB] <;> decide

theorem stableKVsB_optPiece_if (k : String) (c : Prop) [Decidable c] (v : Yaml)
    (hk : strStableB k = true) (hv : Yaml.stableB v = true) :
    stableKVsB (optPiece k (if c then none else some v)) = true := by
  split
  · rfl
  · simp [optPiece, stableKVsB, hk, hv]

theorem stableKVsB_optPiece_map {α : Type} (k : String) (o : Option α) (f : α → Yaml)
    (hk : strStableB k = true) (hv : ∀ x, o = some x → Yaml.stableB (f x) = true) :
    stableKVsB (optPiece k (o.map f)) = true := by
  cases o with
  | none => rfl
  | some x => simp [optPiece, stableKVsB, hk, hv x rfl]

theorem options_dump_stable (o : Options) (hp : strStableB o.proxy_url = true) :
    stableKVsB o.dump = true := by
  simp only [Options.dump, stableKVsB_append, Bool.and_eq_true]
  refine ⟨?_, ?_, ?_, ?_, ?_⟩ <;> apply stableKVsB_optPiece_if <;>
    first
      | decide
      | (simp only [Yaml.stableB] <;> first | rfl | exact hp)

theorem stableListB_map_header (hs : List Header)
    (h : ∀ x ∈ hs, strStableB x.name = true ∧ strStableB x.value = true) :
    stableListB (hs.map Header.dump) = true := by
  induction hs with
  | nil => rfl
  | cons hh ht ih =>
      simp only [List.map_cons, stableListB, Bool.and_eq_true]
      exact ⟨header_dump_stable hh (h hh (by simp)).1 (h hh (by simp)).2,
             ih (fun x hx => h x (by simp [hx]))⟩

theorem stableListB_map_param (ps : List QueryParam)
    (h : ∀ x ∈ ps, strStableB x.name = true ∧ strStableB x.value = true) :
    stableListB (ps.map QueryParam.dump) = true := by
  induction ps with
  | nil => rfl
  | cons hh ht ih =>
      simp only [List.map_cons, stableListB, Bool.and_eq_true]
      exact ⟨param_dump_stable hh (h hh (by simp)).1 (h hh (by simp)).2,
             ih (fun x hx => h x (by simp [hx]))⟩

theorem model_dump_stable (r : RequestModel) (h : r.stringsStableB = true) :
    stableKVsB r.model_dump = true := by
  obtain ⟨nm, de, me, ur, pa, jb, fd, co, au, he, pq, ck, pv, op⟩ := r
  simp only [RequestModel.stringsStableB, Bool.and_eq_true] at h
  obtain ⟨⟨⟨⟨⟨⟨⟨⟨⟨h1, h2⟩, h3⟩, h4⟩, h5⟩, h6⟩, h7⟩, h8⟩, h9⟩, h10⟩ := h
  simp only [List.all_eq_true, Bool.and_eq_true] at h7 h8
  simp only [RequestModel.model_dump, stableKVsB_append, Bool.and_eq_true]
  refine ⟨?_, ?_, ?_, ?_, ?_, ?_, ?_, ?_, ?_, ?_, ?_⟩
  · exact stableKVsB_optPiece_if _ _ _ (by decide) (by simpa [Yaml.stableB] using h1)
  · exact stableKVsB_optPiece_if _ _ _ (by decide) (by simpa [Yaml.stableB] using h2)
  · exact stableKVsB_optPiece_if _ _ _ (by decide) (by simp [Yaml.stableB, method_toStr_stable])
  · exact stableKVsB_optPiece_if _ _ _ (by decide) (by simpa [Yaml.stableB] using h3)
  · apply stableKVsB_optPiece_map _ _ _ (by decide)
    intro x hx
    cases jb with
    | none => cases hx
    | some kvs => cases hx; simpa [Yaml.stableB] using h4
  · apply stableKVsB_optPiece_map _ _ _ (by decide)
    intro x hx
    cases fd with
    | none => cases hx
    | some kvs => cases hx; simpa [Yaml.stableB] using h5
  · apply stableKVsB_optPiece_map _ _ _ (by decide)
    intro x hx
    cases co with
    | none => cases hx
    | some s => cases hx; simpa [Yaml.stableB] using h6
  · exact stableKVsB_optPiece_if _ _ _ (by decide)
      (by simpa [Yaml.stableB] using stableListB_map_header he (fun x hx => ⟨(h7 x hx).1, (h7 x hx).2⟩))
  · exact stableKVsB_optPiece_if _ _ _ (by decide)
      (by simpa [Yaml.stableB] using stableListB_map_param pq (fun x hx => ⟨(h8 x hx).1, (h8 x hx).2⟩))
  · exact stableKVsB_optPiece_if _ _ _ (by decide) (by simpa [Yaml.stableB] using h9)
  · exact stableKVsB_optPiece_if _ _ _ (by decide) (by simpa [Yaml.stableB] using options_dump_stable op h10)

theorem docRT_model_dump (r : RequestModel) (h : r.stringsStableB = true) :
    docRT r.model_dump = r.model_dump :=
  rtKVs_stable _ (model_dump_stable r h)

theorem allRequestsList_append (cs₁ cs₂ : List Collection) :
    allRequestsList (cs₁ ++ cs₂) = allRequestsList cs₁ ++ allRequestsList cs₂ := by
  induction cs₁ with
  | nil => rfl
  | cons c cs ih => simp [allRequestsList, ih]

theorem coe_append_ms {α : Type} (l₁ l₂ : List α) :
    (↑(l₁ ++ l₂) : Multiset α) = ↑l₁ + ↑l₂ := rfl

theorem coe_nil_ms {α : Type} : (↑([] : List α) : Multiset α) = 0 := rfl

theorem coe_cons_ms {α : Type} (a : α) (l : List α) :
    (↑(a :: l) : Multiset α) = {a} + ↑l := by
  show (↑([a] ++ l) : Multiset α) = {a} + ↑l
  exact coe_append_ms [a] l

mutual
theorem insertInto_reqs (r : RequestModel) :
    ∀ (parts sp : List String) (c : Collection),
      (↑(insertInto r sp parts c).allRequests : Multiset RequestModel) =
        ↑c.allRequests + {r}
  | [], sp, .mk p n reqs cs => by
      simp only [insertInto, Collection.allRequests, List.append_assoc,
        List.singleton_append, coe_append_ms, coe_cons_ms]
      abel
  | part :: rest, sp, .mk p n reqs cs => by
      simp only [insertInto]
      split
      · rename_i hfound
        simp only [Collection.allRequests, coe_append_ms]
        rw [reqsList_replace r part rest sp cs hfound]
        abel
      · simp only [Collection.allRequests, allRequestsList_append, allRequestsList,
          coe_append_ms, coe_nil_ms]
        rw [insertInto_reqs r rest (sp ++ [part]) (.mk (sp ++ [part]) part [] [])]
        simp only [Collection.allRequests, allRequestsList, coe_append_ms, coe_nil_ms]
        abel

theorem reqsList_replace (r : RequestModel) (part : String) (rest sp : List String) :
    ∀ (cs : List Collection), cs.any (fun ch => ch.cname = part) = true →
      (↑(allRequestsList (replaceFirstNamed part
          (fun ch => insertInto r (sp ++ [part]) rest ch) cs)) : Multiset RequestModel) =
        ↑(allRequestsList cs) + {r}
  | [], h => by simp at h
  | ch :: cs, h => by
      simp only [replaceFirstNamed]
      split
      · simp only [allRequestsList, coe_append_ms]
        rw [insertInto_reqs r rest (sp ++ [part]) ch]
        abel
      · rename_i hne
        have h' : cs.any (fun c => c.cname = part) = true := by
          simp only [List.any_cons, Bool.or_eq_true, decide_eq_true_eq] at h
          rcases h with h | h
          · exact absurd h hne
          · simpa using h
        simp only [allRequestsList, coe_append_ms]
        rw [reqsList_replace r part rest sp cs h']
        abel
end


theorem buildStep_none (rp : List String) (acc : Collection) (f : FoundFile)
    (h : f.parsed = none) : buildStep rp acc f = acc := by
  unfold buildStep
  rw [h]

theorem buildStep_some (rp : List String) (acc : Collection) (f : FoundFile)
    (r : RequestModel) (h : f.parsed = some r) :
    buildStep rp acc f = insertInto r rp f.relParts.dropLast acc := by
  unfold buildStep
  rw [h]

theorem from_directory_fold_reqs :
    ∀ (files : List FoundFile) (rp : List String) (acc : Collection),
      (↑(files.foldl (buildStep rp) acc).allRequests : Multiset RequestModel) =
        ↑acc.allRequests + ↑(files.filterMap FoundFile.parsed)
  | [], rp, acc => by simp
  | f :: fs, rp, acc => by
      simp only [List.foldl_cons, List.filterMap_cons]
      cases hf : f.parsed with
      | none =>
          rw [buildStep_none rp acc f hf, from_directory_fold_reqs fs rp acc]
      | some r =>
          rw [buildStep_some rp acc f r hf, from_directory_fold_reqs fs rp _,
            insertInto_reqs r _ rp acc, coe_cons_ms]
          abel

theorem insertInto_cname (r : RequestModel) :
    ∀ (parts sp : List String) (c : Collection),
      (insertInto r sp parts c).cname = c.cname
  | [], sp, .mk p n reqs cs => rfl
  | part :: rest, sp, .mk p n reqs cs => by
      simp only [insertInto]
      split <;> rfl

theorem replaceFirst_map_cname (part : String) (f : Collection → Collection)
    (hf : ∀ c, (f c).cname = c.cname) :
    ∀ cs : List Collection,
      (replaceFirstNamed part f cs).map Collection.cname = cs.map Collection.cname
  | [] => rfl
  | c :: cs => by
      simp only [replaceFirstNamed]
      split
      · simp [hf c]
      · simp [replaceFirst_map_cname part f hf cs]

theorem uniqueNamesList_append :
    ∀ cs₁ cs₂ : List Collection,
      uniqueNamesList cs₁ → uniqueNamesList cs₂ → uniqueNamesList (cs₁ ++ cs₂)
  | [], cs₂, _, h₂ => h₂
  | c :: cs, cs₂, h₁, h₂ => by
      simp only [uniqueNamesList] at h₁ ⊢
      exact ⟨h₁.1, uniqueNamesList_append cs cs₂ h₁.2 h₂⟩

mutual
theorem insertInto_unique (r : RequestModel) :
    ∀ (parts sp : List String) (c : Collection),
      c.uniqueNames → (insertInto r sp parts c).uniqueNames
  | [], sp, .mk p n reqs cs, h => by
      simp only [insertInto, Collection.uniqueNames] at h ⊢
      exact h
  | part :: rest, sp, .mk p n reqs cs, h => by
      simp only [Collection.uniqueNames] at h
      simp only [insertInto]
      split
      · rename_i hfound
        simp only [Collection.uniqueNames]
        constructor
        · rw [replaceFirst_map_cname part _ (fun c => insertInto_cname r rest (sp ++ [part]) c) cs]
          exact h.1
        · exact uniqueList_replace r part rest sp cs h.2
      · rename_i hnf
        simp only [Collection.uniqueNames]
        constructor
        · simp only [List.map_append, List.map_cons, List.map_nil]
          rw [insertInto_cname r rest (sp ++ [part]) (.mk (sp ++ [part]) part [] [])]
          simp only [Collection.cname]
          simp only [List.any_eq_true, decide_eq_true_eq, not_exists, not_and] at hnf
          rw [List.nodup_append]
          refine ⟨h.1, List.nodup_singleton part, ?_⟩
          intro a ha
          simp only [List.mem_map] at ha
          obtain ⟨c, hc, rfl⟩ := ha
          simp only [List.mem_singleton]
          intro heq
          exact hnf c hc heq
        · apply uniqueNamesList_append
          · exact h.2
          · simp only [uniqueNamesList]
            refine ⟨?_, trivial⟩
            apply insertInto_unique r rest (sp ++ [part])
            simp only [Collection.uniqueNames]
            exact ⟨List.nodup_nil, trivial⟩

theorem uniqueList_replace (r : RequestModel) (part : String) (rest sp : List String) :
    ∀ cs : List Collection,
      uniqueNamesList cs →
      uniqueNamesList (replaceFirstNamed part
        (fun ch => insertInto r (sp ++ [part]) rest ch) cs)
  | [], h => h
  | c :: cs, h => by
      simp only [uniqueNamesList] at h
      simp only [replaceFirstNamed]
      split
      · simp only [uniqueNamesList]
        exact ⟨insertInto_unique r rest (sp ++ [part]) c h.1, h.2⟩
      · simp only [uniqueNamesList]
        exact ⟨h.1, uniqueList_replace r part rest sp cs h.2⟩
end

theorem from_directory_fold_unique :
    ∀ (files : List FoundFile) (rp : List String) (acc : Collection),
      acc.uniqueNames → (files.foldl (buildStep rp) acc).uniqueNames
  | [], rp, acc, h => h
  | f :: fs, rp, acc, h => by
      simp only [List.foldl_cons]
      cases hf : f.parsed with
      | none =>
          rw [buildStep_none rp acc f hf]
          exact from_directory_fold_unique fs rp acc h
      | some r =>
          rw [buildStep_some rp acc f r hf]
          exact from_directory_fold_unique fs rp _ (insertInto_unique r _ rp acc h)

theorem dropWhile_dropWhile {α : Type} (p : α → Bool) :
    ∀ l : List α, (l.dropWhile p).dropWhile p = l.dropWhile p
  | [] => rfl
  | a :: l => by
      by_cases h : p a
      · simp [List.dropWhile_cons, h, dropWhile_dropWhile p l]
      · simp [List.dropWhile_cons, h]

theorem pyRstrip_idem (s : String) : pyRstrip (pyRstrip s) = pyRstrip s := by
  simp only [pyRstrip, List.reverse_reverse, dropWhile_dropWhile]

theorem pyRstrip_mem {s : String} {c : Char} (h : c ∈ (pyRstrip s).data) : c ∈ s.data := by
  simp only [pyRstrip, List.mem_reverse] at h
  have := (List.dropWhile_sublist pyIsSpace (l := s.data.reverse)).mem h
  simpa using this

theorem splitlinesAux_no_break :
    ∀ (cs acc : List Char) (sawCR : Bool),
      (∀ c ∈ acc, isLineBreak c = false) →
      ∀ l ∈ splitlinesAux cs acc sawCR, ∀ c ∈ l.data, isLineBreak c = false
  | [], acc, sawCR, hacc, l, hl, c, hc => by
      simp only [splitlinesAux] at hl
      split at hl
      · simp at hl
      · simp only [List.mem_singleton] at hl
        subst hl
        exact hacc c (by simpa using hc)
  | ch :: rest, acc, sawCR, hacc, l, hl, c, hc => by
      simp only [splitlinesAux] at hl
      split at hl
      · exact splitlinesAux_no_break rest acc false hacc l hl c hc
      · split at hl
        · simp only [List.mem_cons] at hl
          rcases hl with rfl | hl
          · exact hacc c (by simpa using hc)
          · exact splitlinesAux_no_break rest [] _ (by simp) l hl c hc
        · rename_i hskip hnb
          refine splitlinesAux_no_break rest (ch :: acc) false ?_ l hl c hc
          intro c' hc'
          rcases List.mem_cons.mp hc' with rfl | hmem
          · exact Bool.not_eq_true _ ▸ by simpa using hnb
          · exact hacc c' hmem

theorem splitlinesAux_chunk :
    ∀ (cs acc rest : List Char),
      (∀ c ∈ cs, isLineBreak c = false) →
      splitlinesAux (cs ++ '\n' :: rest) acc false =
        String.mk (acc.reverse ++ cs) :: splitlinesAux rest [] false
  | [], acc, rest, _ => by
      simp [splitlinesAux, isLineBreak]
  | ch :: cs, acc, rest, h => by
      have hch : isLineBreak ch = false := h ch (by simp)
      simp only [List.cons_append, splitlinesAux, Bool.false_and, Bool.false_eq_true,
        if_false, hch, List.append_eq]
      rw [splitlinesAux_chunk cs (ch :: acc) rest (fun c hc => h c (by simp [hc]))]
      simp

theorem splitlinesAux_last :
    ∀ (cs acc : List Char),
      (∀ c ∈ cs, isLineBreak c = false) →
      splitlinesAux cs acc false =
        if (acc.reverse ++ cs).isEmpty then [] else [String.mk (acc.reverse ++ cs)]
  | [], acc, _ => by
      simp [splitlinesAux, List.isEmpty_iff]
  | ch :: cs, acc, h => by
      have hch : isLineBreak ch = false := h ch (by simp)
      simp only [splitlinesAux, Bool.false_and, Bool.false_eq_true, if_false, hch]
      rw [splitlinesAux_last cs (ch :: acc) (fun c hc => h c (by simp [hc]))]
      simp

theorem pySplitlines_joinNL :
    ∀ (ls : List String),
      (∀ l ∈ ls, ∀ c ∈ l.data, isLineBreak c = false) →
      ∀ l' ∈ pySplitlines (joinNL ls), l' ∈ ls
  | [], _, l', hl' => by simp [joinNL, pySplitlines, splitlinesAux] at hl'
  | [l], h, l', hl' => by
      simp only [joinNL, pySplitlines] at hl'
      rw [splitlinesAux_last l.data [] (h l (by simp))] at hl'
      split at hl'
      · simp at hl'
      · simp only [List.reverse_nil, List.nil_append, List.mem_singleton] at hl'
        simp [hl']
  | l :: l₂ :: ls, h, l', hl' => by
      simp only [joinNL, pySplitlines] at hl'
      have hdata : (l ++ "\n" ++ joinNL (l₂ :: ls)).data =
          l.data ++ '\n' :: (joinNL (l₂ :: ls)).data := by
        simp [String.data_append]
      rw [hdata, splitlinesAux_chunk l.data [] _ (h l (by simp))] at hl'
      simp only [List.reverse_nil, List.nil_append, List.mem_cons] at hl'
      rcases hl' with rfl | hl'
      · simp
      · have := pySplitlines_joinNL (l₂ :: ls) (fun x hx => h x (by simp [hx])) l' hl'
        simp [this]

theorem presenter_lines_rstripped (s : String) (hnl : '\n' ∈ s.data) :
    ∀ l ∈ pySplitlines (str_presenter s).1, pyRstrip l = l := by
  intro l hl
  have hpos : pyCountNL s > 0 := by
    simpa [pyCountNL] using List.count_pos_iff.mpr hnl
  simp only [str_presenter, if_pos hpos] at hl
  have hsafe : ∀ x ∈ (pySplitlines s).map pyRstrip, ∀ c ∈ x.data, isLineBreak c = false := by
    intro x hx c hc
    simp only [List.mem_map] at hx
    obtain ⟨y, hy, rfl⟩ := hx
    exact splitlinesAux_no_break s.data [] false (by simp) y hy c (pyRstrip_mem hc)
  have hmem := pySplitlines_joinNL _ hsafe l hl
  simp only [List.mem_map] at hmem
  obtain ⟨y, _, rfl⟩ := hmem
  exact pyRstrip_idem y

/-- C1 (amended): for every Request Entity in which only persisted fields are
populated (`cookies` empty and `auth` unset — both are excluded from
serialization — and `path` overwritten by loading) and whose string values the
YAML text layer leaves unchanged (every multi-line string value has no
trailing whitespace on any of its lines and no trailing line terminator, the
class `stringsStableB` describes), decoding the document produced by encoding
the entity yields the entity back exactly, with `path` set to the location the
document was loaded from.  The stability proviso is forced by
`c1_roundtrip_counterexample`: the `str_presenter` hook rewrites multi-line
strings during encoding. -/
theorem c1_roundtrip_amended (r : RequestModel) (fp : String)
    (hck : r.cookies = []) (hau : r.auth = none) (hs : r.stringsStableB = true) :
    decodeDoc (docRT r.model_dump) fp = some { r with path := some fp } := by
  rw [docRT_model_dump r hs]
  exact decode_model_dump r fp hck hau

/-- C1 witness: a concrete entity with a name, a url and a stable multi-line
description round-trips exactly (with `path` set by the load). -/
theorem c1_roundtrip_witness :
    decodeDoc (docRT (RequestModel.model_dump
        { name := "w", url := "http://example.com", description := "line1\nline2" }))
      "/col/w.posting.yaml" =
      some { ({ name := "w", url := "http://example.com",
                description := "line1\nline2" } : RequestModel) with
             path := some "/col/w.posting.yaml" } :=
  c1_roundtrip_amended
    { name := "w", url := "http://example.com", description := "line1\nline2" }
    "/col/w.posting.yaml" rfl rfl (by decide)

/-- C1 counterexample to the claim as stated: the entity whose `description`
is the multi-line string with a trailing space on its first line, with only
persisted fields populated, does not survive the encode/decode round-trip —
`str_presenter` strips the trailing space, so the decoded entity differs from
the original on the persisted field `description`. -/
theorem c1_roundtrip_counterexample :
    decodeDoc (docRT (RequestModel.model_dump { description := "a \nb" }))
      "/col/r.posting.yaml" ≠
      some { ({ description := "a \nb" } : RequestModel) with
             path := some "/col/r.posting.yaml" } := by
  intro h
  exact absurd (congrArg (Option.map RequestModel.description) h) (by decide)

/-- C2: for every Request Entity — in particular one with a non-empty cookies
list and a set filesystem path — the encoded document contains neither a
`cookies` key nor a `path` key: both fields are declared `exclude=True`. -/
theorem c2_cookies_path_never_encoded (r : RequestModel) :
    getKey r.model_dump "cookies" = none ∧ getKey r.model_dump "path" = none :=
  ⟨getKey_dump_cookies r, getKey_dump_path r⟩

/-- C3: for every list of discovered documents, some of which may be malformed
(`parsed = none` models the decode exception), the build is total and the tree
it returns contains exactly the requests of the well-formed documents (as a
multiset): a malformed document is skipped and never aborts the build. -/
theorem c3_fault_isolation (rootName : String) (rootPath : List String)
    (files : List FoundFile) :
    (↑(Collection.from_directory rootName rootPath files).allRequests :
        Multiset RequestModel) = ↑(files.filterMap FoundFile.parsed) := by
  unfold Collection.from_directory
  rw [from_directory_fold_reqs]
  simp [Collection.allRequests, allRequestsList, coe_nil_ms]

/-- C4: building from root `a` over documents `a/b/x.posting.yaml`,
`a/c/y.posting.yaml` and `a/z.posting.yaml` yields exactly the tree whose root
holds the one request `z` (a document directly in the root directory attaches
to the root node itself) and whose two children are named `b` and `c`, each
holding exactly one request. -/
theorem c4_tree_mirrors_directories (rx ry rz : RequestModel) :
    Collection.from_directory "a" ["a"]
      [⟨["b", "x.posting.yaml"], some rx⟩,
       ⟨["c", "y.posting.yaml"], some ry⟩,
       ⟨["z.posting.yaml"], some rz⟩] =
      .mk ["a"] "a" [rz]
        [.mk ["a", "b"] "b" [rx] [], .mk ["a", "c"] "c" [ry] []] := rfl

/-- C5: every tree returned by the builder has pairwise distinct child names
at every node — insertion searches the existing children by exact name before
creating a new one; moreover two documents sharing the intermediate directory
`b` end up in one single shared node named `b` holding both requests. -/
theorem c5_unique_sibling_names :
    (∀ (rootName : String) (rootPath : List String) (files : List FoundFile),
      (Collection.from_directory rootName rootPath files).uniqueNames) ∧
    (∀ r₁ r₂ : RequestModel,
      Collection.from_directory "a" ["a"]
        [⟨["b", "x.posting.yaml"], some r₁⟩, ⟨["b", "y.posting.yaml"], some r₂⟩] =
        .mk ["a"] "a" [] [.mk ["a", "b"] "b" [r₁, r₂] []]) := by
  constructor
  · intro rootName rootPath files
    apply from_directory_fold_unique
    simp only [Collection.uniqueNames]
    exact ⟨List.nodup_nil, trivial⟩
  · intro r₁ r₂
    rfl

/-- C6: encoding with `exclude_defaults=True, exclude_none=True` omits every
field equal to its declared default and every absent/null field; in
particular, the entity with every field at its default encodes to the empty
document (no field of `RequestModel` lacks a default). -/
theorem c6_default_omission :
    RequestModel.model_dump {} = [] ∧
    (∀ r : RequestModel, r.name = "" → getKey r.model_dump "name" = none) ∧
    (∀ r : RequestModel, r.description = "" → getKey r.model_dump "description" = none) ∧
    (∀ r : RequestModel, r.method = .GET → getKey r.model_dump "method" = none) ∧
    (∀ r : RequestModel, r.url = "" → getKey r.model_dump "url" = none) ∧
    (∀ r : RequestModel, r.json_body = none → getKey r.model_dump "json_body" = none) ∧
    (∀ r : RequestModel, r.form_data = none → getKey r.model_dump "form_data" = none) ∧
    (∀ r : RequestModel, r.content = none → getKey r.model_dump "content" = none) ∧
    (∀ r : RequestModel, r.headers = [] → getKey r.model_dump "headers" = none) ∧
    (∀ r : RequestModel, r.params = [] → getKey r.model_dump "params" = none) ∧
    (∀ r : RequestModel, r.posting_version = VERSION →
      getKey r.model_dump "posting_version" = none) ∧
    (∀ r : RequestModel, r.options = {} → getKey r.model_dump "options" = none) := by
  refine ⟨rfl, ?_, ?_, ?_, ?_, ?_, ?_, ?_, ?_, ?_, ?_, ?_⟩ <;> intro r h
  · rw [getKey_dump_name, if_pos h]
  · rw [getKey_dump_description, if_pos h]
  · rw [getKey_dump_method, if_pos h]
  · rw [getKey_dump_url, if_pos h]
  · rw [getKey_dump_json_body, h]; rfl
  · rw [getKey_dump_form_data, h]; rfl
  · rw [getKey_dump_content, h]; rfl
  · rw [getKey_dump_headers, if_pos h]
  · rw [getKey_dump_params, if_pos h]
  · rw [getKey_dump_posting_version, if_pos h]
  · rw [getKey_dump_options, if_pos h]

/-- C6 witness: the all-defaults entity yields the empty document, and its
`name` key is absent. -/
theorem c6_default_omission_witness :
    RequestModel.model_dump {} = [] ∧
    getKey (RequestModel.model_dump {}) "name" = none :=
  ⟨c6_default_omission.1, c6_default_omission.2.1 {} rfl⟩

/-- C7: the registered string representer emits every string containing a
newline with YAML literal block style and every newline-free string with the
dumper's default style. -/
theorem c7_multiline_literal_style (s : String) :
    ('\n' ∈ s.data → (str_presenter s).2 = ScalarStyle.literal) ∧
    ('\n' ∉ s.data → (str_presenter s).2 = ScalarStyle.plain) := by
  constructor
  · intro h
    have hpos : pyCountNL s > 0 := by
      simpa [pyCountNL] using List.count_pos_iff.mpr h
    simp [str_presenter, hpos]
  · intro h
    have hz : pyCountNL s = 0 := by
      simpa [pyCountNL] using List.count_eq_zero.mpr h
    simp [str_presenter, hz]

/-- C7 witness: a two-line string is emitted in literal block style, a
single-line string in the default style. -/
theorem c7_multiline_literal_style_witness :
    (str_presenter "a\nb").2 = ScalarStyle.literal ∧
    (str_presenter "ab").2 = ScalarStyle.plain :=
  ⟨(c7_multiline_literal_style "a\nb").1 (by decide),
   (c7_multiline_literal_style "ab").2 (by decide)⟩

/-- C8: `to_httpx` never builds the transport request: evaluating the
`content=self.body` argument fails for every entity, because `RequestModel`
declares no attribute `body` — the claim describes the intended behaviour, the
code raises `AttributeError` unconditionally. -/
theorem c8_to_httpx_raises (r : RequestModel) :
    r.to_httpx = Except.error "AttributeError: RequestModel has no attribute body" := rfl

/-- C9: for every string containing a newline, the emitted form has every line
rstripped (each line of the emitted string is a fixed point of `pyRstrip`); a
multi-line string with a trailing space on a line is not emitted verbatim, and
an entity carrying one as its `content` does not survive the encode/decode
round-trip unchanged. -/
theorem c9_trailing_whitespace_stripped :
    (∀ s : String, '\n' ∈ s.data →
      ∀ l ∈ pySplitlines (str_presenter s).1, pyRstrip l = l) ∧
    (str_presenter "a \nb").1 ≠ "a \nb" ∧
    decodeDoc (docRT (RequestModel.model_dump { content := some "a \nb" }))
        "/col/r.posting.yaml" ≠
      some { ({ content := some "a \nb" } : RequestModel) with
             path := some "/col/r.posting.yaml" } := by
  refine ⟨fun s h => presenter_lines_rstripped s h, by decide, ?_⟩
  intro h
  exact absurd (congrArg (Option.map RequestModel.content) h) (by decide)

/-- C9 witness: in the emission of `"x \ny"` the first line has become `"x"`,
a fixed point of `pyRstrip`. -/
theorem c9_trailing_whitespace_stripped_witness : pyRstrip "x" = "x" :=
  c9_trailing_whitespace_stripped.1 "x \ny" (by decide) "x" (by decide)

/-- C10: the `RequestModel` class body declares `auth` twice; by Python
class-body semantics the later declaration wins, and it carries
`exclude=True`, so no encoded document ever contains an `auth` key — auth data
does not survive persistence. -/
theorem c10_auth_double_declaration_excluded :
    (requestModelFieldDecls.filter (fun d => d.1 = "auth")).length = 2 ∧
    effectiveExclude "auth" = true ∧
    ∀ r : RequestModel, getKey r.model_dump "auth" = none :=
  ⟨by decide, by decide, getKey_dump_auth⟩
